import Mathlib

/-!
Shallow embedding of the pywebgen processor pipeline (`src/pyweb/processors.py`)
and CLI command surface (`src/pyweb/pywebgen.py`).

Python exceptions are modelled with `Except`; the filesystem is an association
list from paths to file contents; module availability (Python imports) is an
explicit `Env` record, since instantiation behaviour depends on which optional
modules can be imported.  The external renderer engines (jinja2, yaml, cssyaml)
are out of scope per the spec and are modelled as abstract total functions.
-/

namespace PyWebGen

/-- Error taxonomy of `processors.py` / `error.py`: `UnknownProcessor` is raised
by `GetProcessors`, `MissingPythonModule` by renderer constructors, a raw
ImportError propagates from a failed unguarded import, and IOError models a
failed file read. -/
inductive PyErr where
  | unknownProcessor (name : String)
  | missingPythonModule (name : String)
  | rawImportError (name : String)
  | ioError (path : String)
deriving DecidableEq, Repr

/-- The five processor classes of `processors.py`, as tags. -/
inductive Proc where
  | ignoreP
  | htmlJinja
  | yamlJinja
  | cssYaml
  | copyP
deriving DecidableEq, Repr

/-- Import environment and renderer engines.  The `Ok` booleans record whether
the corresponding Python module import succeeds; `cssyamlMissing` records the
name of the dependency of the repository's `cssyaml` module that is missing, if
any.  The `render` functions abstract the external engines (spec section 6). -/
structure Env where
  jinja2Ok : Bool
  jinja2markdownOk : Bool
  yamlOk : Bool
  cssyamlMissing : Option String
  renderHtml : String → String
  renderYaml : String → String
  renderCss : String → String

/-- `HtmlJinjaProcessor.__init__`: tries `import jinja2` and
`from jinja2_markdown.filters import markdown`; on any ImportError raises
`MissingPythonModule('jinja2')`. -/
def mkHtmlJinja (env : Env) : Except PyErr Proc :=
  if env.jinja2Ok && env.jinja2markdownOk then .ok .htmlJinja
  else .error (.missingPythonModule "jinja2")

/-- `YamlJinjaProcessor.__init__`: first runs `HtmlJinjaProcessor.__init__`,
then tries `import yaml`, raising `MissingPythonModule('yaml')` on failure. -/
def mkYamlJinja (env : Env) : Except PyErr Proc :=
  match mkHtmlJinja env with
  | .error e => .error e
  | .ok _ =>
    if env.yamlOk then .ok .yamlJinja
    else .error (.missingPythonModule "yaml")

/-- `CssYamlProcessor.__init__` runs `import cssyaml`.  Modelled from the spec:
the `cssyaml` module is repository code absent from `src/`; per the spec,
instantiating a processor whose optional dependency is unavailable fails
immediately with `MissingDependency` naming the dependency, so the modelled
module load raises `MissingPythonModule` naming the missing dependency named
in `env.cssyamlMissing`. -/
def mkCssYaml (env : Env) : Except PyErr Proc :=
  match env.cssyamlMissing with
  | some dep => .error (.missingPythonModule dep)
  | none => .ok .cssYaml

/-- The `PROCESSORS` registry: processor name to constructor. -/
def PROCESSORS : List (String × (Env → Except PyErr Proc)) :=
  [("YamlJinja", mkYamlJinja), ("HtmlJinja", mkHtmlJinja), ("CssYaml", mkCssYaml)]

/-- `ListProcessors()`: the registered processor names. -/
def ListProcessors : List String := PROCESSORS.map Prod.fst

/-- The loop body of `GetProcessors`: for each configured name, raise
`UnknownProcessor` if it is not registered, otherwise instantiate it (which may
itself raise), accumulating the instances in order. -/
def getProcessorObjs (env : Env) : List String → Except PyErr (List Proc)
  | [] => .ok []
  | p :: ps =>
    match List.lookup p PROCESSORS with
    | none => .error (.unknownProcessor p)
    | some ctor =>
      match ctor env with
      | .error e => .error e
      | .ok obj =>
        match getProcessorObjs env ps with
        | .error e => .error e
        | .ok rest => .ok (obj :: rest)

/-- `GetProcessors(processors)`: builds
`[IgnoreProtectedFileProcessor()] + processor_objs + [CopyFileProcessor()]`. -/
def GetProcessors (env : Env) (processors : List String) : Except PyErr (List Proc) :=
  match getProcessorObjs env processors with
  | .error e => .error e
  | .ok objs => .ok ([Proc.ignoreP] ++ objs ++ [Proc.copyP])

/-- `os.path.basename` (posix): the part of the path after the last slash. -/
def pyBasename (path : String) : String :=
  String.mk ((path.data.reverse.takeWhile (fun c => c ≠ '/')).reverse)

/-- Python `str.startswith`. -/
def pyStartsWith (s pre : String) : Bool :=
  List.isPrefixOf pre.data s.data

/-- Python `str.endswith`. -/
def pyEndsWith (s suf : String) : Bool :=
  List.isSuffixOf suf.data s.data

/-- `IgnoreProtectedFileProcessor.CanProcessFile`: true when the basename
starts with an underscore, starts with `.#`, or ends with a tilde. -/
def IgnoreCanProcessFile (filename : String) : Bool :=
  let base := pyBasename filename
  pyStartsWith base "_" || pyStartsWith base ".#" || pyEndsWith base "~"

/-- `CanProcessFile` of each processor class. -/
def CanProcessFile : Proc → String → Bool
  | .ignoreP, filename => IgnoreCanProcessFile filename
  | .htmlJinja, filename => pyEndsWith filename ".html"
  | .yamlJinja, filename => pyEndsWith filename ".yaml"
  | .cssYaml, filename => pyEndsWith filename ".css"
  | .copyP, _ => true

/-- Python `str.replace` for a non-empty pattern, on character lists, with fuel
(the fuel is always instantiated to the length of the scanned list, which
suffices since every step consumes at least one character): scan left to
right, replacing each non-overlapping occurrence of `pat` by `rep`. -/
def pyReplaceAux (pat rep : List Char) : Nat → List Char → List Char
  | _, [] => []
  | 0, c :: cs => c :: cs
  | Nat.succ n, c :: cs =>
    if List.isPrefixOf pat (c :: cs) then
      rep ++ pyReplaceAux pat rep n (List.drop (pat.length - 1) cs)
    else
      c :: pyReplaceAux pat rep n cs

/-- Python `str.replace` (non-empty pattern). -/
def pyReplace (s pat rep : String) : String :=
  String.mk (pyReplaceAux pat.data rep.data s.data.length s.data)

/-- `OutputFileRename`: the `_Processor` base-class default returns the input
path unchanged; `YamlJinjaProcessor` overrides it with
`in_path.replace('.yaml', '.html')`. -/
def OutputFileRename : Proc → String → String
  | .yamlJinja, in_path => pyReplace in_path ".yaml" ".html"
  | _, in_path => in_path

/-- The filesystem: an association list from path to file content, most recent
write first. -/
abbrev FS := List (String × String)

/-- Read a file's content (`util.ReadFileContent`). -/
def fsRead (fs : FS) (path : String) : Option String :=
  List.lookup path fs

/-- Write a file (`util.WriteFileContent` / `shutil.copy` target). -/
def fsWrite (fs : FS) (path content : String) : FS :=
  (path, content) :: fs

/-- `ProcessFile` of each processor class.  The ignore processor does nothing
and falls off the end of the method, returning Python `None` (modelled as
`none`); the renderers read the input, render it through their engine and
write the output, returning `True`; the copy processor copies the input bytes
to the output path and returns `True`.  Reading a missing file raises
IOError. -/
def ProcessFile (env : Env) : Proc → FS → String → String → Except PyErr (FS × Option Bool)
  | .ignoreP, fs, _, _ => .ok (fs, none)
  | .htmlJinja, fs, in_path, out_path =>
    match fsRead fs in_path with
    | none => .error (.ioError in_path)
    | some content => .ok (fsWrite fs out_path (env.renderHtml content), some true)
  | .yamlJinja, fs, in_path, out_path =>
    match fsRead fs in_path with
    | none => .error (.ioError in_path)
    | some content => .ok (fsWrite fs out_path (env.renderYaml content), some true)
  | .cssYaml, fs, in_path, out_path =>
    match fsRead fs in_path with
    | none => .error (.ioError in_path)
    | some content => .ok (fsWrite fs out_path (env.renderCss content), some true)
  | .copyP, fs, in_path, out_path =>
    match fsRead fs in_path with
    | none => .error (.ioError in_path)
    | some content => .ok (fsWrite fs out_path content, some true)

/-- Pipeline resolution: linear scan, first processor whose `CanProcessFile`
returns true. -/
def resolveProcessor (procs : List Proc) (path : String) : Option Proc :=
  List.find? (fun p => CanProcessFile p path) procs

/-- Python truthiness of a `ProcessFile` return value (`None` and `False` are
both falsy). -/
def pyTruthy : Option Bool → Bool
  | none => false
  | some b => b

/-- State of one generator run: the filesystem, the manifest of output paths
produced, and the list of failed input files. -/
structure GenState where
  fs : FS
  manifest : List String
  errors : List String

/-- Modelled from the spec: `generator.py` is not under `src/`.  Per spec
section 4.1, for each input file the generator resolves a processor, computes
the output path via `Rename`, and runs `Process`; a file whose processing
returns ok is appended to the Manifest, a file whose processor signals failure
is recorded as failed, and a file claimed by the ignore processor (whose
`Process` reports handled-but-not-emitted, i.e. returns `None`) is excluded
from the Manifest without being counted as an error. -/
def generatorStep (env : Env) (procs : List Proc) (st : GenState) (in_path : String) :
    GenState :=
  match resolveProcessor procs in_path with
  | none => st
  | some p =>
    let out_path := OutputFileRename p in_path
    match ProcessFile env p st.fs in_path out_path with
    | .error _ => ⟨st.fs, st.manifest, st.errors ++ [in_path]⟩
    | .ok (fs2, result) =>
      if result = some true then ⟨fs2, st.manifest ++ [out_path], st.errors⟩
      else if result = none then ⟨fs2, st.manifest, st.errors⟩
      else ⟨fs2, st.manifest, st.errors ++ [in_path]⟩

/-- Spec-side reformulation of the ignore rule, following the spec's words:
the file's name (its basename) starts with an underscore, starts with `.#`, or
ends with a tilde. -/
def SpecIgnoredName (path : String) : Prop :=
  (∃ t, (pyBasename path).data = '_' :: t) ∨
  (∃ t, (pyBasename path).data = '.' :: '#' :: t) ∨
  (∃ t, (pyBasename path).data = t ++ ['~'])

/-- An environment in which every registered processor's dependencies are
available, so every constructor succeeds. -/
def envAllDepsOk (env : Env) : Bool :=
  env.jinja2Ok && env.jinja2markdownOk && env.yamlOk && env.cssyamlMissing.isNone

/-- A concrete environment with all modules available and identity renderers. -/
def envAll : Env :=
  ⟨true, true, true, none, fun s => s, fun s => s, fun s => s⟩

/-- A concrete environment in which `import yaml` fails. -/
def envNoYaml : Env :=
  ⟨true, true, false, none, fun s => s, fun s => s, fun s => s⟩

/-- A concrete environment in which `import jinja2` succeeds but
`from jinja2_markdown.filters import markdown` fails. -/
def envNoMarkdown : Env :=
  ⟨true, false, true, none, fun s => s, fun s => s, fun s => s⟩

/-- A concrete environment in which the `cssyaml` module's dependency
`cssutils` is missing. -/
def envNoCss : Env :=
  ⟨true, true, true, some "cssutils", fun s => s, fun s => s, fun s => s⟩

/-! CLI command surface of `src/pyweb/pywebgen.py`.  Option parsing and the
effectful collaborators (`container`, `generator`, `versions`, `deploy`, all
absent from `src/`) are abstracted: each command takes its positional
arguments after option extraction and returns its exit code, with the external
operations modelled as succeeding.  `startsite_cmd` additionally takes the
`os.path.exists` oracle it consults. -/

/-- Python whitespace characters stripped by `int()`. -/
def pyIsSpace (c : Char) : Bool :=
  c = ' ' || c = '\t' || c = '\n' || c = '\r' || c = '\x0b' || c = '\x0c'

/-- ASCII decimal digit. -/
def pyIsDigit (c : Char) : Bool :=
  '0' ≤ c && c ≤ '9'

/-- Value of a digit string. -/
def digitsVal (ds : List Char) : Nat :=
  ds.foldl (fun a c => 10 * a + (c.toNat - '0'.toNat)) 0

/-- Python 2 `int(str)`: strip surrounding whitespace, optional sign, one or
more decimal digits; anything else raises ValueError (modelled as `none`). -/
def pyParseInt (s : String) : Option Int :=
  let t := ((s.data.dropWhile pyIsSpace).reverse.dropWhile pyIsSpace).reverse
  match t with
  | [] => none
  | '+' :: ds =>
    if ds.isEmpty then none
    else if ds.all pyIsDigit then some (digitsVal ds) else none
  | '-' :: ds =>
    if ds.isEmpty then none
    else if ds.all pyIsDigit then some (-(digitsVal ds : Int)) else none
  | ds =>
    if ds.all pyIsDigit then some (digitsVal ds) else none

/-- `startsite_cmd`: usage error (exit 2) unless exactly one positional
argument; exit 1 if the site path already exists; otherwise creates the
container and returns 0. -/
def startsite_cmd (pathExists : String → Bool) (args : List String) : Int :=
  if args.length ≠ 1 then 2
  else if pathExists (args.headD "") then 1
  else 0

/-- `generate_cmd`: usage error (exit 2) unless exactly two positional
arguments; otherwise generates and returns 0. -/
def generate_cmd (args : List String) : Int :=
  if args.length ≠ 2 then 2 else 0

/-- `vgenerate_cmd`: usage error (exit 2) unless exactly two positional
arguments; otherwise generates a version and returns 0. -/
def vgenerate_cmd (args : List String) : Int :=
  if args.length ≠ 2 then 2 else 0

/-- The version selector of `vcurrent_cmd`: the string `latest` maps to the
sentinel 0; any other string is parsed with `int()`, a failure being a usage
error. -/
def vcurrentSelector (s : String) : Option Int :=
  if s = "latest" then some 0 else pyParseInt s

/-- `vcurrent_cmd`: usage error (exit 2) unless exactly two positional
arguments or if the selector is neither an integer nor `latest`; otherwise
calls `ChangeCurrent` with the resolved selector and returns 0. -/
def vcurrent_cmd (args : List String) : Int :=
  if args.length ≠ 2 then 2
  else
    match vcurrentSelector (args.getD 1 "") with
    | none => 2
    | some _ => 0

/-- `vinfo_cmd`: usage error (exit 2) unless exactly one positional argument;
otherwise lists versions and returns 0. -/
def vinfo_cmd (args : List String) : Int :=
  if args.length ≠ 1 then 2 else 0

/-- `vgc_cmd`: usage error (exit 2) unless exactly one positional argument;
otherwise garbage-collects and returns 0. -/
def vgc_cmd (args : List String) : Int :=
  if args.length ≠ 1 then 2 else 0

/-- `deploy_cmd`: usage error (exit 2) unless exactly three positional
arguments; otherwise deploys and returns 0. -/
def deploy_cmd (args : List String) : Int :=
  if args.length ≠ 3 then 2 else 0

/-- `undeploy_cmd`: usage error (exit 2) unless exactly three positional
arguments; otherwise undeploys and returns 0. -/
def undeploy_cmd (args : List String) : Int :=
  if args.length ≠ 3 then 2 else 0

/-! Helper lemmas. -/

theorem isPrefixOf_one_iff (c : Char) (l : List Char) :
    List.isPrefixOf [c] l = true ↔ ∃ t, l = c :: t := by
  cases l with
  | nil => simp [List.isPrefixOf]
  | cons a t =>
    simp only [List.isPrefixOf, Bool.and_eq_true, beq_iff_eq]
    constructor
    · rintro ⟨rfl, -⟩; exact ⟨t, rfl⟩
    · rintro ⟨t2, h⟩; cases h; exact ⟨rfl, by simp [List.isPrefixOf]⟩

theorem isPrefixOf_two_iff (c d : Char) (l : List Char) :
    List.isPrefixOf [c, d] l = true ↔ ∃ t, l = c :: d :: t := by
  cases l with
  | nil => simp [List.isPrefixOf]
  | cons a t =>
    cases t with
    | nil => simp [List.isPrefixOf]
    | cons b t2 =>
      simp only [List.isPrefixOf, Bool.and_eq_true, beq_iff_eq]
      constructor
      · rintro ⟨rfl, rfl, -⟩; exact ⟨t2, rfl⟩
      · rintro ⟨t3, h⟩; cases h; exact ⟨rfl, rfl, by simp [List.isPrefixOf]⟩

theorem isSuffixOf_one_iff (c : Char) (l : List Char) :
    List.isSuffixOf [c] l = true ↔ ∃ t, l = t ++ [c] := by
  unfold List.isSuffixOf
  rw [show ([c].reverse) = [c] from rfl, isPrefixOf_one_iff]
  constructor
  · rintro ⟨t, h⟩
    refine ⟨t.reverse, ?_⟩
    have := congrArg List.reverse h
    simpa using this
  · rintro ⟨t, rfl⟩
    exact ⟨t.reverse, by simp⟩

theorem takeWhile_append_stop (p : Char → Bool) (a : Char) (ha : p a = false) :
    ∀ (x y : List Char), List.takeWhile p (x ++ a :: y) = List.takeWhile p x := by
  intro x y
  induction x with
  | nil => simp [List.takeWhile, ha]
  | cons b t ih =>
    simp only [List.cons_append, List.takeWhile]
    cases hb : p b with
    | false => rfl
    | true => simp [ih]

theorem pyBasename_append (d p : String) : pyBasename (d ++ "/" ++ p) = pyBasename p := by
  cases d with
  | mk ld =>
    cases p with
    | mk lp =>
      show String.mk _ = String.mk _
      have hdata : (String.mk ld ++ "/" ++ String.mk lp).data = (ld ++ ['/']) ++ lp := rfl
      rw [hdata]
      have : ((ld ++ ['/']) ++ lp).reverse = lp.reverse ++ '/' :: ld.reverse := by
        simp
      rw [this, takeWhile_append_stop _ '/' (by simp) lp.reverse ld.reverse]

theorem lookup_none_iff (n : String) :
    List.lookup n PROCESSORS = none ↔ ¬ n ∈ ListProcessors := by
  by_cases h1 : n = "YamlJinja"
  · subst h1; simp [PROCESSORS, ListProcessors, List.lookup]
  · by_cases h2 : n = "HtmlJinja"
    · subst h2; simp [PROCESSORS, ListProcessors, List.lookup]
    · by_cases h3 : n = "CssYaml"
      · subst h3; simp [PROCESSORS, ListProcessors, List.lookup]
      · have e1 : (n == "YamlJinja") = false := by simp [h1]
        have e2 : (n == "HtmlJinja") = false := by simp [h2]
        have e3 : (n == "CssYaml") = false := by simp [h3]
        simp [PROCESSORS, ListProcessors, List.lookup, e1, e2, e3, h1, h2, h3]

theorem mem_of_lookup_some (n : String) (c : Env → Except PyErr Proc)
    (h : List.lookup n PROCESSORS = some c) : n ∈ ListProcessors := by
  by_contra hn
  rw [(lookup_none_iff n).mpr hn] at h
  simp at h

theorem lookup_PROCESSORS_cases (n : String) (ctor : Env → Except PyErr Proc)
    (h : List.lookup n PROCESSORS = some ctor) :
    ctor = mkYamlJinja ∨ ctor = mkHtmlJinja ∨ ctor = mkCssYaml := by
  simp only [PROCESSORS, List.lookup] at h
  split at h
  · exact Or.inl (Option.some.inj h).symm
  · split at h
    · exact Or.inr (Or.inl (Option.some.inj h).symm)
    · split at h
      · exact Or.inr (Or.inr (Option.some.inj h).symm)
      · cases h

theorem ctor_ok_of_depsOk (env : Env) (hEnv : envAllDepsOk env = true)
    (ctor : Env → Except PyErr Proc)
    (hc : ctor = mkYamlJinja ∨ ctor = mkHtmlJinja ∨ ctor = mkCssYaml) :
    ∃ p, ctor env = .ok p := by
  simp only [envAllDepsOk, Bool.and_eq_true, Option.isNone_iff_eq_none] at hEnv
  obtain ⟨⟨⟨h1, h2⟩, h3⟩, h4⟩ := hEnv
  rcases hc with rfl | rfl | rfl
  · exact ⟨.yamlJinja, by simp [mkYamlJinja, mkHtmlJinja, h1, h2, h3]⟩
  · exact ⟨.htmlJinja, by simp [mkHtmlJinja, h1, h2]⟩
  · exact ⟨.cssYaml, by simp [mkCssYaml, h4]⟩

theorem getProcessorObjs_forall2 (env : Env) :
    ∀ (names : List String) (objs : List Proc), getProcessorObjs env names = .ok objs →
      List.Forall₂
        (fun n p => ∃ ctor, List.lookup n PROCESSORS = some ctor ∧ ctor env = .ok p)
        names objs := by
  intro names
  induction names with
  | nil =>
    intro objs h
    simp only [getProcessorObjs] at h
    cases h
    exact List.Forall₂.nil
  | cons n ns ih =>
    intro objs h
    simp only [getProcessorObjs] at h
    cases hl : List.lookup n PROCESSORS with
    | none => simp only [hl] at h; cases h
    | some ctor =>
      simp only [hl] at h
      cases hc : ctor env with
      | error e => simp only [hc] at h; cases h
      | ok obj =>
        simp only [hc] at h
        cases hr : getProcessorObjs env ns with
        | error e => simp only [hr] at h; cases h
        | ok rest =>
          simp only [hr] at h
          cases h
          exact List.Forall₂.cons ⟨ctor, hl, hc⟩ (ih rest hr)

theorem GetProcessors_ok_shape (env : Env) (names : List String) (pl : List Proc)
    (h : GetProcessors env names = .ok pl) :
    ∃ objs, getProcessorObjs env names = .ok objs ∧
      pl = Proc.ignoreP :: (objs ++ [Proc.copyP]) := by
  unfold GetProcessors at h
  cases hg : getProcessorObjs env names with
  | error e => rw [hg] at h; cases h
  | ok objs =>
    rw [hg] at h
    cases h
    exact ⟨objs, rfl, rfl⟩

theorem resolveProcessor_append_copy (l : List Proc) (f : String) :
    (resolveProcessor (l ++ [Proc.copyP]) f).isSome = true := by
  induction l with
  | nil => simp [resolveProcessor, List.find?, CanProcessFile]
  | cons a t ih =>
    simp only [resolveProcessor, List.cons_append, List.find?]
    cases hc : CanProcessFile a f with
    | true => rfl
    | false => exact ih

theorem resolveProcessor_ignore_head (rest : List Proc) (f : String)
    (hf : IgnoreCanProcessFile f = true) :
    resolveProcessor (Proc.ignoreP :: rest) f = some Proc.ignoreP := by
  simp [resolveProcessor, List.find?, CanProcessFile, hf]

theorem fsRead_fsWrite (fs : FS) (path content : String) :
    fsRead (fsWrite fs path content) path = some content := by
  simp [fsRead, fsWrite, List.lookup]

theorem pyReplaceAux_nil_fuel (pat rep : List Char) (n : Nat) :
    pyReplaceAux pat rep n [] = [] := by
  cases n <;> rfl

theorem pyReplaceAux_no_dot (rep : List Char) :
    ∀ (stem : List Char) (n : Nat), (∀ c ∈ stem, c ≠ '.') →
      (stem ++ ['.', 'y', 'a', 'm', 'l']).length ≤ n →
      pyReplaceAux ['.', 'y', 'a', 'm', 'l'] rep n (stem ++ ['.', 'y', 'a', 'm', 'l']) =
        stem ++ rep := by
  intro stem
  induction stem with
  | nil =>
    intro n _ hn
    cases n with
    | zero => simp at hn
    | succ m =>
      show pyReplaceAux _ _ (m + 1) ('.' :: ['y', 'a', 'm', 'l']) = rep
      simp only [pyReplaceAux]
      rw [if_pos (by decide)]
      simp [pyReplaceAux_nil_fuel]
  | cons c cs ih =>
    intro n hc hn
    cases n with
    | zero => simp at hn
    | succ m =>
      have hcdot : c ≠ '.' := hc c (List.mem_cons_self c cs)
      show pyReplaceAux _ _ (m + 1) (c :: (cs ++ ['.', 'y', 'a', 'm', 'l'])) = (c :: cs) ++ rep
      simp only [pyReplaceAux]
      rw [if_neg (by simp [List.isPrefixOf, Ne.symm hcdot])]
      have hlen : (cs ++ ['.', 'y', 'a', 'm', 'l']).length ≤ m := by
        simp only [List.length_append, List.length_cons] at hn ⊢
        omega
      rw [ih m (fun x hx => hc x (List.mem_cons_of_mem c hx)) hlen]
      rfl

theorem pyReplace_no_dot (stem : String) (h : ∀ c ∈ stem.data, c ≠ '.') :
    pyReplace (stem ++ ".yaml") ".yaml" ".html" = stem ++ ".html" := by
  cases stem with
  | mk l =>
    show String.mk _ = String.mk _
    have hd : (String.mk l ++ ".yaml").data = l ++ ['.', 'y', 'a', 'm', 'l'] := rfl
    simp only [pyReplace, hd]
    rw [pyReplaceAux_no_dot _ l _ h (le_refl _)]

theorem getProcessorObjs_unknown_iff (env : Env) (hEnv : envAllDepsOk env = true) :
    ∀ names : List String,
      ((∃ m, getProcessorObjs env names = .error (.unknownProcessor m)) ↔
        ∃ n ∈ names, ¬ n ∈ ListProcessors) ∧
      ((∀ n ∈ names, n ∈ ListProcessors) →
        ∃ objs, getProcessorObjs env names = .ok objs) := by
  intro names
  induction names with
  | nil =>
    constructor
    · simp [getProcessorObjs]
    · intro _; exact ⟨[], rfl⟩
  | cons n ns ih =>
    cases hl : List.lookup n PROCESSORS with
    | none =>
      have hmem : ¬ n ∈ ListProcessors := (lookup_none_iff n).mp hl
      constructor
      · constructor
        · intro _; exact ⟨n, List.mem_cons_self n ns, hmem⟩
        · intro _
          refine ⟨n, ?_⟩
          simp [getProcessorObjs, hl]
      · intro hall
        exact absurd (hall n (List.mem_cons_self n ns)) hmem
    | some ctor =>
      have hmem : n ∈ ListProcessors := mem_of_lookup_some n ctor hl
      obtain ⟨p, hp⟩ := ctor_ok_of_depsOk env hEnv ctor (lookup_PROCESSORS_cases n ctor hl)
      cases hr : getProcessorObjs env ns with
      | error e =>
        have hexp : getProcessorObjs env (n :: ns) = .error e := by
          simp [getProcessorObjs, hl, hp, hr]
        constructor
        · constructor
          · rintro ⟨m, hm⟩
            rw [hexp] at hm
            obtain ⟨n2, hn2, hnr⟩ := ih.1.mp ⟨m, by
              rw [hr]
              exact congrArg Except.error (Except.error.inj hm)⟩
            exact ⟨n2, List.mem_cons_of_mem n hn2, hnr⟩
          · rintro ⟨n2, hn2, hnr⟩
            rcases List.mem_cons.mp hn2 with rfl | hn2s
            · exact absurd hmem hnr
            · obtain ⟨m, hm⟩ := ih.1.mpr ⟨n2, hn2s, hnr⟩
              rw [hr] at hm
              exact ⟨m, by rw [hexp]; exact hm⟩
        · intro hall
          obtain ⟨objs, hobjs⟩ := ih.2 (fun x hx => hall x (List.mem_cons_of_mem n hx))
          rw [hr] at hobjs
          cases hobjs
      | ok rest =>
        have hexp : getProcessorObjs env (n :: ns) = .ok (p :: rest) := by
          simp [getProcessorObjs, hl, hp, hr]
        constructor
        · constructor
          · rintro ⟨m, hm⟩
            rw [hexp] at hm
            cases hm
          · rintro ⟨n2, hn2, hnr⟩
            rcases List.mem_cons.mp hn2 with rfl | hn2s
            · exact absurd hmem hnr
            · obtain ⟨m, hm⟩ := ih.1.mpr ⟨n2, hn2s, hnr⟩
              rw [hr] at hm
              cases hm
        · intro _; exact ⟨p :: rest, hexp⟩

theorem GetProcessors_error_transfer (env : Env) (names : List String) (e : PyErr) :
    GetProcessors env names = .error e ↔ getProcessorObjs env names = .error e := by
  unfold GetProcessors
  cases hg : getProcessorObjs env names with
  | error e2 => simp
  | ok objs => simp

theorem GetProcessors_ok_transfer (env : Env) (names : List String) :
    (∃ pl, GetProcessors env names = .ok pl) ↔
      (∃ objs, getProcessorObjs env names = .ok objs) := by
  unfold GetProcessors
  cases hg : getProcessorObjs env names with
  | error e2 => simp
  | ok objs => simp

theorem IgnoreCan_iff_spec (f : String) :
    IgnoreCanProcessFile f = true ↔ SpecIgnoredName f := by
  unfold IgnoreCanProcessFile SpecIgnoredName pyStartsWith pyEndsWith
  rw [show ("_" : String).data = ['_'] from rfl,
    show (".#" : String).data = ['.', '#'] from rfl,
    show ("~" : String).data = ['~'] from rfl]
  simp only [Bool.or_eq_true]
  rw [isPrefixOf_one_iff, isPrefixOf_two_iff, isSuffixOf_one_iff, or_assoc]

end PyWebGen

namespace PyWebGen

/-- C1: for every ordered sequence of configured processor names, a successful
`GetProcessors` call returns a pipeline whose first element is the
`IgnoreProtectedFileProcessor`, whose last element is the `CopyFileProcessor`,
and whose middle elements are the instantiations of the configured (and hence
registered) processors in exactly the order requested. -/
theorem GetProcessors_pipeline_shape (env : Env) (names : List String)
    (pl : List Proc) (h : GetProcessors env names = .ok pl) :
    ∃ mids, pl = Proc.ignoreP :: (mids ++ [Proc.copyP]) ∧
      List.Forall₂
        (fun n p => ∃ ctor, List.lookup n PROCESSORS = some ctor ∧ ctor env = .ok p)
        names mids := by
  obtain ⟨objs, hobjs, rfl⟩ := GetProcessors_ok_shape env names pl h
  exact ⟨objs, rfl, getProcessorObjs_forall2 env names objs hobjs⟩

/-- C1 witness: a concrete two-renderer configuration. -/
theorem GetProcessors_pipeline_shape_witness :
    ∃ mids, [Proc.ignoreP, Proc.htmlJinja, Proc.cssYaml, Proc.copyP] =
        Proc.ignoreP :: (mids ++ [Proc.copyP]) ∧
      List.Forall₂
        (fun n p => ∃ ctor, List.lookup n PROCESSORS = some ctor ∧ ctor envAll = .ok p)
        ["HtmlJinja", "CssYaml"] mids :=
  GetProcessors_pipeline_shape envAll ["HtmlJinja", "CssYaml"]
    [Proc.ignoreP, Proc.htmlJinja, Proc.cssYaml, Proc.copyP] rfl

/-- C2 counterexample: with the `yaml` module unavailable, the single
configured name `YamlJinja` is registered and yet `GetProcessors` raises
(`MissingPythonModule('yaml')`), refuting "when all identifiers are registered
it does not raise". -/
theorem GetProcessors_registered_name_still_raises :
    ("YamlJinja" ∈ ListProcessors) ∧
    GetProcessors envNoYaml ["YamlJinja"] = .error (.missingPythonModule "yaml") :=
  ⟨by decide, rfl⟩

/-- C2 (amended): in an environment where every registered processor's
dependencies are available, `GetProcessors` fails with `UnknownProcessor` if
and only if some configured identifier is not a registered processor name, and
when all identifiers are registered it does not raise. -/
theorem GetProcessors_unknown_iff (env : Env) (names : List String)
    (hEnv : envAllDepsOk env = true) :
    ((∃ m, GetProcessors env names = .error (.unknownProcessor m)) ↔
      ∃ n ∈ names, ¬ n ∈ ListProcessors) ∧
    ((∀ n ∈ names, n ∈ ListProcessors) → ∃ pl, GetProcessors env names = .ok pl) := by
  obtain ⟨h1, h2⟩ := getProcessorObjs_unknown_iff env hEnv names
  constructor
  · rw [exists_congr (fun m => GetProcessors_error_transfer env names (.unknownProcessor m))]
    exact h1
  · intro hall
    exact (GetProcessors_ok_transfer env names).mpr (h2 hall)

/-- C2 witness: an unregistered name makes `GetProcessors` fail with
`UnknownProcessor`; an all-registered configuration succeeds. -/
theorem GetProcessors_unknown_iff_witness :
    (∃ m, GetProcessors envAll ["HtmlJinja", "Bogus"] = .error (.unknownProcessor m)) ∧
    (∃ pl, GetProcessors envAll ["HtmlJinja"] = .ok pl) := by
  have h1 := GetProcessors_unknown_iff envAll ["HtmlJinja", "Bogus"] rfl
  have h2 := GetProcessors_unknown_iff envAll ["HtmlJinja"] rfl
  exact ⟨h1.1.mpr ⟨"Bogus", by decide, by decide⟩, h2.2 (by decide)⟩

/-- C3 counterexample: in an environment where `import jinja2` succeeds but
`from jinja2_markdown.filters import markdown` fails, `HtmlJinjaProcessor`
construction raises `MissingPythonModule('jinja2')` — naming a module that is
available rather than the missing dependency. -/
theorem HtmlJinja_misnames_missing_dependency :
    envNoMarkdown.jinja2Ok = true ∧ envNoMarkdown.jinja2markdownOk = false ∧
    mkHtmlJinja envNoMarkdown = .error (.missingPythonModule "jinja2") :=
  ⟨rfl, rfl, rfl⟩

/-- C3 (amended): a renderer processor whose required module is unavailable
fails immediately at construction time with a `MissingDependency` error, and
the failure already surfaces from `GetProcessors` (pipeline construction);
however the Jinja processors name `jinja2` for any failure of either jinja
module load (even when only `jinja2_markdown` is missing), `YamlJinjaProcessor`
names `yaml` when the yaml module is missing, and the spec-modelled
`CssYamlProcessor` names the missing dependency of the `cssyaml` module. -/
theorem mkProcessor_fail_fast (env : Env) (dep : String) :
    ((env.jinja2Ok && env.jinja2markdownOk) = false →
      mkHtmlJinja env = .error (.missingPythonModule "jinja2") ∧
      mkYamlJinja env = .error (.missingPythonModule "jinja2") ∧
      GetProcessors env ["HtmlJinja"] = .error (.missingPythonModule "jinja2")) ∧
    ((env.jinja2Ok && env.jinja2markdownOk) = true → env.yamlOk = false →
      mkYamlJinja env = .error (.missingPythonModule "yaml") ∧
      GetProcessors env ["YamlJinja"] = .error (.missingPythonModule "yaml")) ∧
    (env.cssyamlMissing = some dep →
      mkCssYaml env = .error (.missingPythonModule dep) ∧
      GetProcessors env ["CssYaml"] = .error (.missingPythonModule dep)) := by
  have hlkH : List.lookup "HtmlJinja" PROCESSORS = some mkHtmlJinja := rfl
  have hlkY : List.lookup "YamlJinja" PROCESSORS = some mkYamlJinja := rfl
  have hlkC : List.lookup "CssYaml" PROCESSORS = some mkCssYaml := rfl
  refine ⟨fun h => ?_, fun hj hy => ?_, fun hc => ?_⟩
  · have e1 : mkHtmlJinja env = .error (.missingPythonModule "jinja2") := by
      simp [mkHtmlJinja, h]
    have e2 : mkYamlJinja env = .error (.missingPythonModule "jinja2") := by
      simp [mkYamlJinja, e1]
    refine ⟨e1, e2, ?_⟩
    simp [GetProcessors, getProcessorObjs, hlkH, e1]
  · have e1 : mkYamlJinja env = .error (.missingPythonModule "yaml") := by
      simp [mkYamlJinja, mkHtmlJinja, hj, hy]
    refine ⟨e1, ?_⟩
    simp [GetProcessors, getProcessorObjs, hlkY, e1]
  · have e1 : mkCssYaml env = .error (.missingPythonModule dep) := by
      simp [mkCssYaml, hc]
    refine ⟨e1, ?_⟩
    simp [GetProcessors, getProcessorObjs, hlkC, e1]

/-- C3 witness: concrete environments exercising each missing-dependency
branch. -/
theorem mkProcessor_fail_fast_witness :
    GetProcessors envNoMarkdown ["HtmlJinja"] = .error (.missingPythonModule "jinja2") ∧
    GetProcessors envNoYaml ["YamlJinja"] = .error (.missingPythonModule "yaml") ∧
    GetProcessors envNoCss ["CssYaml"] = .error (.missingPythonModule "cssutils") :=
  ⟨((mkProcessor_fail_fast envNoMarkdown "cssutils").1 rfl).2.2,
   ((mkProcessor_fail_fast envNoYaml "cssutils").2.1 rfl rfl).2,
   ((mkProcessor_fail_fast envNoCss "cssutils").2.2 rfl).2⟩

/-- C4: `CopyFileProcessor.CanProcessFile` returns true for every filename;
consequently first-match resolution over any pipeline built by `GetProcessors`
claims every input file (resolution never returns nothing); and for every
input file that exists, `CopyFileProcessor.ProcessFile` writes a byte-identical
copy of the input content at the output path and returns `True`. -/
theorem CopyFileProcessor_total_and_copies (env : Env) (names : List String)
    (pl : List Proc) (hpl : GetProcessors env names = .ok pl) :
    (∀ f, CanProcessFile Proc.copyP f = true) ∧
    (∀ f, (resolveProcessor pl f).isSome = true) ∧
    (∀ fs in_path out_path content, fsRead fs in_path = some content →
      ProcessFile env Proc.copyP fs in_path out_path =
        .ok (fsWrite fs out_path content, some true) ∧
      fsRead (fsWrite fs out_path content) out_path = some content) := by
  obtain ⟨objs, -, rfl⟩ := GetProcessors_ok_shape env names pl hpl
  refine ⟨fun f => rfl, fun f => ?_, fun fs i o c h => ?_⟩
  · exact resolveProcessor_append_copy (Proc.ignoreP :: objs) f
  · exact ⟨by simp [ProcessFile, h], fsRead_fsWrite fs o c⟩

/-- C4 witness: a concrete pipeline and file. -/
theorem CopyFileProcessor_total_and_copies_witness :
    (resolveProcessor [Proc.ignoreP, Proc.copyP] "notes.txt").isSome = true ∧
    ProcessFile envAll Proc.copyP [("notes.txt", "data")] "notes.txt" "out" =
      .ok ([("out", "data"), ("notes.txt", "data")], some true) := by
  have h := CopyFileProcessor_total_and_copies envAll [] [Proc.ignoreP, Proc.copyP] rfl
  exact ⟨h.2.1 "notes.txt",
    (h.2.2 [("notes.txt", "data")] "notes.txt" "out" "data" rfl).1⟩

/-- C5: `IgnoreProtectedFileProcessor.CanProcessFile` is true exactly when the
file's name (its basename) starts with `_`, starts with `.#`, or ends with
`~`; its `ProcessFile` performs no write and returns `None`; and for any such
file, a generator step over a `GetProcessors` pipeline leaves the state
unchanged: nothing is written, the file is excluded from the Manifest, and it
is not counted as an error. -/
theorem IgnoreProtectedFileProcessor_spec (env : Env) (names : List String)
    (pl : List Proc) (hpl : GetProcessors env names = .ok pl) (f : String) :
    (IgnoreCanProcessFile f = true ↔ SpecIgnoredName f) ∧
    (∀ fs out_path, ProcessFile env Proc.ignoreP fs f out_path = .ok (fs, none)) ∧
    (IgnoreCanProcessFile f = true → ∀ st, generatorStep env pl st f = st) := by
  obtain ⟨objs, -, rfl⟩ := GetProcessors_ok_shape env names pl hpl
  refine ⟨IgnoreCan_iff_spec f, fun fs o => rfl, fun hf st => ?_⟩
  cases st with
  | mk fs m e =>
    simp [generatorStep, resolveProcessor_ignore_head _ f hf, ProcessFile]

/-- C5 witness: the concrete ignored file `_x` in a concrete pipeline. -/
theorem IgnoreProtectedFileProcessor_spec_witness :
    (IgnoreCanProcessFile "_x" = true ↔ SpecIgnoredName "_x") ∧
    ProcessFile envAll Proc.ignoreP [] "_x" "out" = .ok ([], none) ∧
    generatorStep envAll [Proc.ignoreP, Proc.copyP] ⟨[], [], []⟩ "_x" = ⟨[], [], []⟩ := by
  have h := IgnoreProtectedFileProcessor_spec envAll [] [Proc.ignoreP, Proc.copyP] rfl "_x"
  exact ⟨h.1, h.2.1 [] "out", h.2.2 rfl ⟨[], [], []⟩⟩

end PyWebGen

namespace PyWebGen

/-- C6 counterexample: `YamlJinjaProcessor.OutputFileRename` uses
`str.replace`, which rewrites every occurrence of `.yaml`, so the input
`a/b.yaml.yaml` (which ends in `.yaml`) maps to `a/b.html.html` instead of the
extension-only rewrite `a/b.yaml.html`. -/
theorem YamlJinja_rename_rewrites_all :
    OutputFileRename Proc.yamlJinja "a/b.yaml.yaml" = "a/b.html.html" ∧
    OutputFileRename Proc.yamlJinja "a/b.yaml.yaml" ≠ "a/b.yaml.html" :=
  ⟨by decide, by decide⟩

/-- C6 (amended): the default `OutputFileRename` is the identity on every
input path; `YamlJinjaProcessor` overrides it to replace every occurrence of
the substring `.yaml` by `.html`, which for an input path whose only dot
characters are those of its final `.yaml` extension coincides with replacing
only the extension (e.g. `a/b.yaml` maps to `a/b.html`). -/
theorem OutputFileRename_spec (p stem : String)
    (hstem : ∀ c ∈ stem.data, c ≠ '.') :
    OutputFileRename Proc.ignoreP p = p ∧
    OutputFileRename Proc.htmlJinja p = p ∧
    OutputFileRename Proc.cssYaml p = p ∧
    OutputFileRename Proc.copyP p = p ∧
    OutputFileRename Proc.yamlJinja (stem ++ ".yaml") = stem ++ ".html" :=
  ⟨rfl, rfl, rfl, rfl, pyReplace_no_dot stem hstem⟩

/-- C6 witness: the concrete rename of `a/b.yaml`. -/
theorem OutputFileRename_spec_witness :
    OutputFileRename Proc.copyP "a/b.yaml" = "a/b.yaml" ∧
    OutputFileRename Proc.yamlJinja ("a/b" ++ ".yaml") = "a/b" ++ ".html" :=
  ⟨(OutputFileRename_spec "a/b.yaml" "a/b" (by decide)).2.2.2.1,
   (OutputFileRename_spec "a/b.yaml" "a/b" (by decide)).2.2.2.2⟩

/-- C7: every CLI command returns exit code 2 on a wrong number of positional
arguments; `vcurrent` also returns 2 when its selector is neither an integer
nor `latest`; `startsite` returns 1 when the site path already exists; and
successful runs return 0. -/
theorem cli_exit_codes (pathExists : String → Bool) (args : List String)
    (a d s : String) :
    (args.length ≠ 1 → startsite_cmd pathExists args = 2) ∧
    (args.length ≠ 2 → generate_cmd args = 2) ∧
    (args.length ≠ 2 → vgenerate_cmd args = 2) ∧
    (args.length ≠ 2 → vcurrent_cmd args = 2) ∧
    (args.length ≠ 1 → vinfo_cmd args = 2) ∧
    (args.length ≠ 1 → vgc_cmd args = 2) ∧
    (args.length ≠ 3 → deploy_cmd args = 2) ∧
    (args.length ≠ 3 → undeploy_cmd args = 2) ∧
    (s ≠ "latest" → pyParseInt s = none → vcurrent_cmd [d, s] = 2) ∧
    (pathExists a = true → startsite_cmd pathExists [a] = 1) ∧
    (pathExists a = false → startsite_cmd pathExists [a] = 0) ∧
    generate_cmd [d, s] = 0 ∧
    vgenerate_cmd [d, s] = 0 ∧
    vinfo_cmd [a] = 0 ∧
    vgc_cmd [a] = 0 ∧
    deploy_cmd [d, s, a] = 0 ∧
    undeploy_cmd [d, s, a] = 0 ∧
    (s = "latest" → vcurrent_cmd [d, s] = 0) ∧
    ((∃ k, pyParseInt s = some k) → vcurrent_cmd [d, s] = 0) := by
  refine ⟨fun h => by simp [startsite_cmd, h],
    fun h => by simp [generate_cmd, h],
    fun h => by simp [vgenerate_cmd, h],
    fun h => by simp [vcurrent_cmd, h],
    fun h => by simp [vinfo_cmd, h],
    fun h => by simp [vgc_cmd, h],
    fun h => by simp [deploy_cmd, h],
    fun h => by simp [undeploy_cmd, h],
    fun hlat hps => by simp [vcurrent_cmd, vcurrentSelector, hlat, hps],
    fun hex => by simp [startsite_cmd, hex],
    fun hex => by simp [startsite_cmd, hex],
    by simp [generate_cmd],
    by simp [vgenerate_cmd],
    by simp [vinfo_cmd],
    by simp [vgc_cmd],
    by simp [deploy_cmd],
    by simp [undeploy_cmd],
    fun hlat => by simp [vcurrent_cmd, vcurrentSelector, hlat],
    ?_⟩
  rintro ⟨k, hk⟩
  by_cases hlat : s = "latest" <;>
    simp [vcurrent_cmd, vcurrentSelector, hlat, hk]

/-- C7 witness: concrete invocations exercising the usage-error, precondition
and success exits. -/
theorem cli_exit_codes_witness :
    startsite_cmd (fun _ => true) [] = 2 ∧
    generate_cmd [] = 2 ∧
    vgenerate_cmd [] = 2 ∧
    vcurrent_cmd [] = 2 ∧
    vinfo_cmd [] = 2 ∧
    vgc_cmd [] = 2 ∧
    deploy_cmd [] = 2 ∧
    undeploy_cmd [] = 2 ∧
    vcurrent_cmd ["d", "abc"] = 2 ∧
    startsite_cmd (fun _ => true) ["site"] = 1 ∧
    startsite_cmd (fun _ => false) ["site"] = 0 ∧
    vcurrent_cmd ["d", "latest"] = 0 ∧
    vcurrent_cmd ["d", "7"] = 0 := by
  obtain ⟨a1, a2, a3, a4, a5, a6, a7, a8, a9, a10, -, -, -, -, -, -, -, -, -⟩ :=
    cli_exit_codes (fun _ => true) [] "site" "d" "abc"
  obtain ⟨-, -, -, -, -, -, -, -, -, -, b11, -, -, -, -, -, -, b18, -⟩ :=
    cli_exit_codes (fun _ => false) [] "site" "d" "latest"
  obtain ⟨-, -, -, -, -, -, -, -, -, -, -, -, -, -, -, -, -, -, c19⟩ :=
    cli_exit_codes (fun _ => true) [] "site" "d" "7"
  exact ⟨a1 (by decide), a2 (by decide), a3 (by decide), a4 (by decide),
    a5 (by decide), a6 (by decide), a7 (by decide), a8 (by decide),
    a9 (by decide) (by decide), a10 rfl, b11 rfl, b18 rfl, c19 ⟨7, by decide⟩⟩

/-- C8: the ignore decision inspects only the basename: prepending any
directory to a path leaves `IgnoreProtectedFileProcessor.CanProcessFile`
unchanged, and in particular a file inside a directory whose name starts with
an underscore (`_drafts/page.html`) is not claimed by the ignore processor. -/
theorem IgnoreCanProcessFile_basename_only (d p : String) :
    IgnoreCanProcessFile (d ++ "/" ++ p) = IgnoreCanProcessFile p ∧
    IgnoreCanProcessFile "_drafts/page.html" = false := by
  constructor
  · unfold IgnoreCanProcessFile
    rw [pyBasename_append]
  · decide

/-- C9: `IgnoreProtectedFileProcessor.ProcessFile` returns `None`, while the
`ProcessFile` of every other processor returns `True` on success; `None` is
not `True`, and since `None` and `False` have the same truthiness, a caller
inspecting only the return value cannot distinguish an ignored file from a
failed one. -/
theorem ProcessFile_return_values (env : Env) (fs : FS)
    (in_path out_path content : String) (h : fsRead fs in_path = some content) :
    ProcessFile env Proc.ignoreP fs in_path out_path = .ok (fs, none) ∧
    ProcessFile env Proc.htmlJinja fs in_path out_path =
      .ok (fsWrite fs out_path (env.renderHtml content), some true) ∧
    ProcessFile env Proc.yamlJinja fs in_path out_path =
      .ok (fsWrite fs out_path (env.renderYaml content), some true) ∧
    ProcessFile env Proc.cssYaml fs in_path out_path =
      .ok (fsWrite fs out_path (env.renderCss content), some true) ∧
    ProcessFile env Proc.copyP fs in_path out_path =
      .ok (fsWrite fs out_path content, some true) ∧
    pyTruthy none = false ∧ pyTruthy (some false) = false ∧
    (none : Option Bool) ≠ some true := by
  refine ⟨rfl, ?_, ?_, ?_, ?_, rfl, rfl, by simp⟩ <;> simp [ProcessFile, h]

/-- C9 witness: concrete processors on a one-file filesystem. -/
theorem ProcessFile_return_values_witness :
    ProcessFile envAll Proc.ignoreP [("a", "x")] "a" "b" = .ok ([("a", "x")], none) ∧
    ProcessFile envAll Proc.copyP [("a", "x")] "a" "b" =
      .ok ([("b", "x"), ("a", "x")], some true) := by
  have h := ProcessFile_return_values envAll [("a", "x")] "a" "b" "x" rfl
  exact ⟨h.1, h.2.2.2.2.1⟩

/-- C10: the `vcurrent` selector maps the string `latest` to the sentinel 0
and parses any other selector with `int()`, so the explicit selector `0` is
passed to `ChangeCurrent` identically to `latest`. -/
theorem vcurrent_latest_is_zero :
    vcurrentSelector "latest" = some 0 ∧ vcurrentSelector "0" = some 0 ∧
    vcurrentSelector "latest" = vcurrentSelector "0" :=
  ⟨rfl, by decide, by decide⟩

end PyWebGen
